import Mathlib

/-!
Shallow embedding of the `ai-newsletter-agent` repository
(`src/newsletter/db.py`, `curator.py`, `emailer.py`, `main.py`).

Python floats are modelled as `ℚ`, SQLite tables as Lean lists of rows,
and the fallible Claude API call as an `Except`-valued parameter.  The
pydantic `Article` model of `models.py` declares none of the five
multi-dimensional score fields, so `_curate_batch`'s in-place update raises
`ValueError` at its first matched article; the curator model
(`partialUpdate`, `curateBatch`, `curate_articles`) reproduces that error
path, carrying the partially mutated batch in the `Except.error` payload.
-/

namespace Newsletter

/-- One row of the `articles` table (schema in `db.py` `init_db`, including the
multi-dimensional scoring columns added by `ALTER TABLE`), which is also the
shape of the in-memory `Article` objects produced by `_row_to_article`. -/
structure Article where
  url : String
  title : String
  source : String
  raw_content : String
  summary : String
  category : String
  relevance_score : ℚ
  impact_score : ℚ
  actionability_score : ℚ
  source_quality_score : ℚ
  recency_bonus : ℚ
  final_score : ℚ
  collected_at : Nat
  curated : Bool
  sent : Bool
deriving DecidableEq, Repr

/-- The SQL ordering key of `get_articles_for_newsletter`:
`CASE WHEN final_score > 0 THEN final_score ELSE relevance_score END`. -/
def sortKey (a : Article) : ℚ :=
  if 0 < a.final_score then a.final_score else a.relevance_score

/-- The keyword parameters of `get_articles_for_newsletter`
(defaults: limit=20, max_same_source=5, min_papers=2, min_expert=1). -/
structure SelParams where
  limit : Nat
  max_same_source : Nat
  min_papers : Nat
  min_expert : Nat
deriving DecidableEq, Repr

/-- `paper_sources = {"Hugging Face Papers", "arXiv"}` in
`get_articles_for_newsletter`. -/
def paper_sources : List String := ["Hugging Face Papers", "arXiv"]

/-- `expert_prefixes = ("Bluesky @",)` in `get_articles_for_newsletter`. -/
def expertPrefixList : List String := ["Bluesky @"]

/-- `expert_feeds` in `get_articles_for_newsletter`. -/
def expert_feeds : List String :=
  ["karpathy.substack.com", "drfeifei.substack.com",
   "interconnects.ai", "simonwillison.net",
   "lilianweng.github.io", "lexfridman.com"]

/-- `_is_paper`: `a.source in paper_sources`. -/
def isPaper (a : Article) : Bool := paper_sources.contains a.source

/-- Python's `sub in s` on strings: `sub` occurs contiguously in `s`
(checked on the character lists). -/
def hasSub : List Char → List Char → Bool
  | [], sub => sub.isEmpty
  | c :: t, sub => sub.isPrefixOf (c :: t) || hasSub t sub

/-- Python's `str.lower()` for one character (the sources and feed names the
selector compares are ASCII, where `lower` maps only `A`-`Z`). -/
def charLower (c : Char) : Char :=
  if 'A' ≤ c && c ≤ 'Z' then Char.ofNat (c.toNat + 32) else c

/-- `_is_expert`: `any(a.source.startswith(p) for p in expert_prefixes)` or
`any(feed in a.source.lower() for feed in expert_feeds)`. -/
def isExpert (a : Article) : Bool :=
  expertPrefixList.any (fun p => p.data.isPrefixOf a.source.data) ||
  expert_feeds.any (fun f => hasSub (a.source.data.map charLower) f.data)

/-- The selector's mutable state.  The Python code keeps `selected`,
`selected_urls` and `source_counts` in lockstep (only `_add` writes them);
here `selected_urls` and `source_counts` are the derived views
`sel.map (·.url)` and `fun s => (sel.filter (·.source == s)).length`. -/
def srcCount (sel : List Article) (s : String) : Nat :=
  (sel.filter (fun a => a.source == s)).length

/-- `_can_add`: reject if `a.url in selected_urls` or
`source_counts.get(a.source, 0) >= max_same_source`. -/
def canAdd (p : SelParams) (sel : List Article) (a : Article) : Bool :=
  !(sel.any (fun b => b.url == a.url)) && decide (srcCount sel a.source < p.max_same_source)

/-- Phase 2 / 3 quota loop of `get_articles_for_newsletter`: walk
`all_articles`, breaking once `cnt ≥ quota`, adding matching addable items
(`good` is `_is_paper` for phase 2, `_is_expert` for phase 3).
Returns the new `selected` and the final counter. -/
def fillQuota (p : SelParams) (good : Article → Bool) (quota : Nat) :
    List Article → List Article → Nat → List Article × Nat
  | [], sel, cnt => (sel, cnt)
  | a :: rest, sel, cnt =>
    if quota ≤ cnt then (sel, cnt)
    else if good a && canAdd p sel a then fillQuota p good quota rest (sel ++ [a]) (cnt + 1)
    else fillQuota p good quota rest sel cnt

/-- Phase 4 of `get_articles_for_newsletter`: fill the remainder by score,
breaking once `len(selected) ≥ limit`. -/
def fillRest (p : SelParams) : List Article → List Article → List Article
  | [], sel => sel
  | a :: rest, sel =>
    if p.limit ≤ sel.length then sel
    else if canAdd p sel a then fillRest p rest (sel ++ [a])
    else fillRest p rest sel

/-- The diversity-aware selection of `get_articles_for_newsletter`, applied to
`all_articles` (the rows returned by the sorted SQL query).  Phase 1 reserves
`all_articles[0]` unconditionally; phases 2-4 as above. -/
def selectFrom (p : SelParams) (all_articles : List Article) : List Article :=
  match all_articles with
  | [] => []
  | a0 :: _ =>
    let sel1 := [a0]
    let papers0 := (sel1.filter isPaper).length
    let step2 := fillQuota p isPaper p.min_papers all_articles sel1 papers0
    let experts0 := (step2.1.filter isExpert).length
    let step3 := fillQuota p isExpert p.min_expert all_articles step2.1 experts0
    fillRest p all_articles step3.1

/-- Boolean form of the SQL `WHERE curated = 1 AND sent = 0` filter. -/
def isCandidate (a : Article) : Bool := a.curated && !a.sent

/-- The SQL `ORDER BY ... DESC` comparison: descending in `sortKey`. -/
def scoreDesc (a b : Article) : Bool := decide (sortKey b ≤ sortKey a)

/-- `get_articles_for_newsletter` over a pool (the `articles` table): the SQL
query filters `curated = 1 AND sent = 0` and orders descending by `sortKey`,
then the selection phases run. -/
def get_articles_for_newsletter (pool : List Article) (p : SelParams) : List Article :=
  selectFrom p ((pool.filter isCandidate).mergeSort scoreDesc)

/-!  `curator.py` -/

/-- One entry of the JSON array returned by the judging call, as consumed by
`_curate_batch` (an object with "url", "category", the five sub-scores and
"summary"). -/
structure Judgment where
  url : String
  category : String
  relevance : ℚ
  impact : ℚ
  actionability : ℚ
  source_quality : ℚ
  recency_bonus : ℚ
  summary : String
deriving DecidableEq, Repr

/-- The weighted sum computed in `_curate_batch`:
`relevance*0.35 + impact*0.25 + actionability*0.20 + source_quality*0.15 + recency_bonus*0.05`. -/
def finalScoreOf (d : Judgment) : ℚ :=
  d.relevance * (35 / 100) + d.impact * (25 / 100) + d.actionability * (20 / 100)
    + d.source_quality * (15 / 100) + d.recency_bonus * (5 / 100)

/-- `result_map` of `_curate_batch`: a dict keyed by url, built front to back,
so a later entry with the same url overwrites an earlier one (lookup returns
the last matching entry). -/
def resultMap (parsed : List Judgment) (u : String) : Option Judgment :=
  (parsed.filter (fun d => d.url == u)).getLast?

/-- The in-place mutations of `_curate_batch` that complete for a matched
article: `category`, `summary`, and `relevance_score` (set to the weighted
sum).  The next statement, `article.impact_score = impact`, assigns a field
the pydantic `Article` model of `models.py` does not declare, which raises
`ValueError`; the remaining assignments — `actionability_score`,
`source_quality_score`, `recency_bonus`, `final_score` and `curated = True` —
never execute. -/
def partialUpdate (a : Article) (d : Judgment) : Article :=
  { a with
    category := d.category
    summary := d.summary
    relevance_score := finalScoreOf d }

/-- The result-mapping loop of `_curate_batch`: unmatched articles are
appended unchanged; the first matched article triggers the `ValueError`
described at `partialUpdate`, so the loop raises, with that article left
partially mutated in place.  The `Except.error` payload is the state of the
shared batch list at the raise: the matched article mutated, every other
article untouched. -/
def curateBatch : List Article → List Judgment → Except (List Article) (List Article)
  | [], _ => Except.ok []
  | a :: rest, parsed =>
    match resultMap parsed a.url with
    | some d => Except.error (partialUpdate a d :: rest)
    | none =>
      match curateBatch rest parsed with
      | Except.ok res => Except.ok (a :: res)
      | Except.error mutated => Except.error (a :: mutated)

/-- `BATCH_SIZE = 10` in `curator.py`. -/
def BATCH_SIZE : Nat := 10

/-- The batching of `curate_articles`: `articles[i : i+10]` for
`i = 0, 10, 20, ...`. -/
def chunksOf : List α → List (List α)
  | [] => []
  | a :: rest => (a :: rest).take BATCH_SIZE :: chunksOf ((a :: rest).drop BATCH_SIZE)
termination_by l => l.length
decreasing_by simp [BATCH_SIZE]; omega

/-- `curate_articles`: empty input returns `[]`; each batch goes through the
judging call (`judge` models the API interaction of `_curate_batch`; an
`Except.error` is a raised API error) and then the result-mapping loop; any
exception — the API error, or the `ValueError` the mapping loop raises on
its first matched article — is caught per batch
(`except Exception: curated.extend(batch)`), which extends the shared batch
objects in their current, possibly mutated, state. -/
def curate_articles (articles : List Article)
    (judge : List Article → Except Unit (List Judgment)) : List Article :=
  if articles.isEmpty then []
  else (chunksOf articles).flatMap (fun b =>
    match judge b with
    | Except.error _ => b
    | Except.ok parsed =>
      match curateBatch b parsed with
      | Except.ok res => res
      | Except.error mutated => mutated)

/-!  `db.py` store operations -/

/-- `insert_article`: `INSERT OR IGNORE` on the `url` primary key, then
`return conn.total_changes > 0`.  The store is the list of rows of the
`articles` table. -/
def insertArticle (store : List Article) (a : Article) : List Article × Bool :=
  if store.any (fun r => r.url == a.url) then (store, false)
  else (store ++ [a], true)

/-- `insert_articles`: insert each article in order (the returned count of
newly inserted rows is not modelled; only the store evolution is). -/
def insertAll (store : List Article) (ls : List Article) : List Article :=
  ls.foldl (fun s a => (insertArticle s a).1) store

/-- `get_uncurated_articles`: `SELECT * FROM articles WHERE curated = 0 AND sent = 0`. -/
def get_uncurated_articles (store : List Article) : List Article :=
  store.filter (fun a => !a.curated && !a.sent)

/-- `update_article_curation`: `UPDATE articles SET summary, category,
relevance_score, impact_score, actionability_score, source_quality_score,
recency_bonus, final_score, curated = 1 WHERE url = ?`. -/
def update_article_curation (store : List Article) (url summ cat : String)
    (relevance impact actionability source_quality recency final : ℚ) : List Article :=
  store.map (fun r =>
    if r.url == url then
      { r with
        summary := summ, category := cat, relevance_score := relevance,
        impact_score := impact, actionability_score := actionability,
        source_quality_score := source_quality, recency_bonus := recency,
        final_score := final, curated := true }
    else r)

/-!  `main.py` step 3 -/

/-- The persistence loop of `run_pipeline` step 3: for each curated article,
`update_article_curation(db_path, url, summary, category, relevance_score)` —
the five optional score arguments are omitted, so their Python defaults `0.0`
are written. -/
def persistCuration (store : List Article) (curatedOut : List Article) : List Article :=
  curatedOut.foldl
    (fun s a =>
      if a.curated then
        update_article_curation s a.url a.summary a.category a.relevance_score 0 0 0 0 0
      else s)
    store

/-- `run_pipeline` step 3 as a store transformer: fetch the uncurated
articles, curate them, persist the successfully curated ones. -/
def runCuration (store : List Article)
    (judge : List Article → Except Unit (List Judgment)) : List Article :=
  persistCuration store (curate_articles (get_uncurated_articles store) judge)

/-!  `emailer.py` -/

/-- `send_newsletter` of `emailer.py`.  The network outcome of the
`resend.Emails.send` attempt for the recipient at position `i` is modelled by
`deliveryOk i`; the body of the loop increments `result["sent"]` on success
and, via the `except` branch, `result["failed"]` on failure.  Empty
subscriber list or missing API key short-circuit to zero counts. -/
def send_newsletter (subscribers : List String) (hasApiKey : Bool)
    (deliveryOk : Nat → Bool) : Nat × Nat :=
  if subscribers.isEmpty then (0, 0)
  else if !hasApiKey then (0, 0)
  else subscribers.enum.foldl
    (fun r ie => if deliveryOk ie.1 then (r.1 + 1, r.2) else (r.1, r.2 + 1))
    (0, 0)

/-!  Helper lemmas about the selector -/

theorem canAdd_iff {p : SelParams} {sel : List Article} {a : Article} :
    canAdd p sel a = true ↔
      (∀ b ∈ sel, b.url ≠ a.url) ∧ srcCount sel a.source < p.max_same_source := by
  simp [canAdd, List.any_eq_true]

theorem srcCount_append {sel : List Article} {a : Article} {s : String} :
    srcCount (sel ++ [a]) s = srcCount sel s + (if a.source = s then 1 else 0) := by
  simp only [srcCount, List.filter_append]
  rw [List.length_append]
  congr 1
  simp only [List.filter_cons, List.filter_nil]
  by_cases h : a.source = s <;> simp [h]

theorem srcCount_le_length (sel : List Article) (s : String) :
    srcCount sel s ≤ sel.length := by
  simpa [srcCount] using List.length_filter_le _ sel

/-- Adding an addable article preserves the url-Nodup invariant. -/
theorem urlNodup_add {sel : List Article} {a : Article}
    (h : (sel.map (fun x => x.url)).Nodup) (hc : ∀ b ∈ sel, b.url ≠ a.url) :
    ((sel ++ [a]).map (fun x => x.url)).Nodup := by
  simp only [List.map_append, List.map_cons, List.map_nil]
  rw [List.nodup_append]
  refine ⟨h, List.nodup_singleton _, ?_⟩
  intro u hu hu'
  simp only [List.mem_singleton] at hu'
  obtain ⟨b, hb, rfl⟩ := List.mem_map.mp hu
  exact hc b hb hu'

/-- Adding an addable article preserves the source-cap invariant. -/
theorem srcCap_add {p : SelParams} {sel : List Article} {a : Article}
    (h : ∀ s, srcCount sel s ≤ p.max_same_source) (hc : canAdd p sel a = true) :
    ∀ s, srcCount (sel ++ [a]) s ≤ p.max_same_source := by
  intro s
  rw [srcCount_append]
  by_cases hs : a.source = s
  · subst hs
    have h2 := (canAdd_iff.mp hc).2
    rw [if_pos rfl]
    omega
  · simp [hs, h s]

/-- Any property preserved by guarded additions is preserved by the quota
loop. -/
theorem fillQuota_preserve {p : SelParams} {good : Article → Bool} {quota : Nat}
    (P : List Article → Prop)
    (hP : ∀ sel a, P sel → canAdd p sel a = true → P (sel ++ [a])) :
    ∀ (l sel : List Article) (cnt : Nat), P sel →
      P (fillQuota p good quota l sel cnt).1 := by
  intro l
  induction l with
  | nil => intro sel cnt h; simpa [fillQuota] using h
  | cons a rest ih =>
    intro sel cnt h
    rw [fillQuota]
    split
    · exact h
    · split
      · rename_i hg
        exact ih _ _ (hP sel a h (Bool.and_elim_right hg))
      · exact ih _ _ h

/-- Any property preserved by guarded additions is preserved by the
fill-remainder loop. -/
theorem fillRest_preserve {p : SelParams} (P : List Article → Prop)
    (hP : ∀ sel a, P sel → canAdd p sel a = true → P (sel ++ [a])) :
    ∀ (l sel : List Article), P sel → P (fillRest p l sel) := by
  intro l
  induction l with
  | nil => intro sel h; simpa [fillRest] using h
  | cons a rest ih =>
    intro sel h
    rw [fillRest]
    split
    · exact h
    · split
      · rename_i hg
        exact ih _ (hP sel a h hg)
      · exact ih _ h

theorem fillQuota_length {p : SelParams} {good : Article → Bool} {quota : Nat} :
    ∀ (l sel : List Article) (cnt : Nat),
      (fillQuota p good quota l sel cnt).1.length ≤ sel.length + (quota - cnt) := by
  intro l
  induction l with
  | nil => intro sel cnt; simp [fillQuota]
  | cons a rest ih =>
    intro sel cnt
    rw [fillQuota]
    split
    · simp
    · rename_i hq
      split
      · have := ih (sel ++ [a]) (cnt + 1)
        simp only [List.length_append, List.length_cons, List.length_nil] at this ⊢
        omega
      · exact Nat.le_trans (ih sel cnt) (by omega)

theorem fillRest_length {p : SelParams} :
    ∀ (l sel : List Article), (fillRest p l sel).length ≤ max sel.length p.limit := by
  intro l
  induction l with
  | nil => intro sel; simp [fillRest]
  | cons a rest ih =>
    intro sel
    rw [fillRest]
    split
    · exact Nat.le_max_left _ _
    · rename_i hl
      split
      · refine Nat.le_trans (ih (sel ++ [a])) ?_
        simp only [List.length_append, List.length_cons, List.length_nil]
        omega
      · exact ih sel

/-- The quota loop only appends to the already selected list. -/
theorem fillQuota_extends {p : SelParams} {good : Article → Bool} {quota : Nat} :
    ∀ (l sel : List Article) (cnt : Nat),
      ∃ t, (fillQuota p good quota l sel cnt).1 = sel ++ t := by
  intro l
  induction l with
  | nil => intro sel cnt; exact ⟨[], by simp [fillQuota]⟩
  | cons a rest ih =>
    intro sel cnt
    rw [fillQuota]
    split
    · exact ⟨[], by simp⟩
    · split
      · obtain ⟨t, ht⟩ := ih (sel ++ [a]) (cnt + 1)
        exact ⟨a :: t, by simpa using ht⟩
      · exact ih sel cnt

/-- The fill-remainder loop only appends to the already selected list. -/
theorem fillRest_extends {p : SelParams} :
    ∀ (l sel : List Article), ∃ t, fillRest p l sel = sel ++ t := by
  intro l
  induction l with
  | nil => intro sel; exact ⟨[], by simp [fillRest]⟩
  | cons a rest ih =>
    intro sel
    rw [fillRest]
    split
    · exact ⟨[], by simp⟩
    · split
      · obtain ⟨t, ht⟩ := ih (sel ++ [a])
        exact ⟨a :: t, by simpa using ht⟩
      · exact ih sel

/-- The selection phases never produce two items with the same url. -/
theorem selectFrom_urlNodup (p : SelParams) (l : List Article) :
    ((selectFrom p l).map (fun x => x.url)).Nodup := by
  match l with
  | [] => simp [selectFrom]
  | a0 :: rest =>
    rw [selectFrom]
    apply fillRest_preserve (fun sel => (sel.map (fun x => x.url)).Nodup)
      (fun sel a h hc => urlNodup_add h (canAdd_iff.mp hc).1)
    apply fillQuota_preserve (fun sel => (sel.map (fun x => x.url)).Nodup)
      (fun sel a h hc => urlNodup_add h (canAdd_iff.mp hc).1)
    apply fillQuota_preserve (fun sel => (sel.map (fun x => x.url)).Nodup)
      (fun sel a h hc => urlNodup_add h (canAdd_iff.mp hc).1)
    simp

/-- When `max_same_source ≥ 1`, no source exceeds the cap in the selection
(the phase-1 headline is added to an empty selection, so its source reaches
count 1 ≤ cap; every later addition is guarded by `_can_add`). -/
theorem selectFrom_srcCap (p : SelParams) (h1 : 1 ≤ p.max_same_source)
    (l : List Article) :
    ∀ s, srcCount (selectFrom p l) s ≤ p.max_same_source := by
  match l with
  | [] => intro s; simp [selectFrom, srcCount]
  | a0 :: rest =>
    rw [selectFrom]
    apply fillRest_preserve (fun sel => ∀ s, srcCount sel s ≤ p.max_same_source)
      (fun sel a h hc => srcCap_add h hc)
    apply fillQuota_preserve (fun sel => ∀ s, srcCount sel s ≤ p.max_same_source)
      (fun sel a h hc => srcCap_add h hc)
    apply fillQuota_preserve (fun sel => ∀ s, srcCount sel s ≤ p.max_same_source)
      (fun sel a h hc => srcCap_add h hc)
    intro s
    exact Nat.le_trans (srcCount_le_length [a0] s) (by simpa using h1)

/-- When `limit` leaves room for the headline and both quotas, the selection
respects `limit`. -/
theorem selectFrom_length (p : SelParams)
    (h : 1 + p.min_papers + p.min_expert ≤ p.limit) (l : List Article) :
    (selectFrom p l).length ≤ p.limit := by
  match l with
  | [] => simp [selectFrom]
  | a0 :: rest =>
    rw [selectFrom]
    have h2 := @fillQuota_length p isPaper p.min_papers
      (a0 :: rest) [a0] (([a0].filter isPaper).length)
    have h3 := @fillQuota_length p isExpert p.min_expert
      (a0 :: rest)
      (fillQuota p isPaper p.min_papers (a0 :: rest) [a0] (([a0].filter isPaper).length)).1
      (((fillQuota p isPaper p.min_papers (a0 :: rest) [a0]
          (([a0].filter isPaper).length)).1.filter isExpert).length)
    have h4 := @fillRest_length p (a0 :: rest)
      (fillQuota p isExpert p.min_expert (a0 :: rest)
        (fillQuota p isPaper p.min_papers (a0 :: rest) [a0]
          (([a0].filter isPaper).length)).1
        (((fillQuota p isPaper p.min_papers (a0 :: rest) [a0]
            (([a0].filter isPaper).length)).1.filter isExpert).length)).1
    simp only [List.length_singleton] at h2
    omega

/-- The phase-1 headline stays at the head of the final selection: all later
phases only append. -/
theorem selectFrom_head (p : SelParams) (a0 : Article) (rest : List Article) :
    ∃ t, selectFrom p (a0 :: rest) = a0 :: t := by
  rw [selectFrom]
  obtain ⟨t2, ht2⟩ := @fillQuota_extends p isPaper p.min_papers
    (a0 :: rest) [a0] (([a0].filter isPaper).length)
  rw [ht2]
  obtain ⟨t3, ht3⟩ := @fillQuota_extends p isExpert p.min_expert
    (a0 :: rest) ([a0] ++ t2) (((([a0] ++ t2)).filter isExpert).length)
  rw [ht3]
  obtain ⟨t4, ht4⟩ := @fillRest_extends p (a0 :: rest) ([a0] ++ t2 ++ t3)
  rw [ht4]
  exact ⟨t2 ++ t3 ++ t4, by simp⟩

theorem scoreDesc_trans (a b c : Article) :
    scoreDesc a b → scoreDesc b c → scoreDesc a c := by
  simp only [scoreDesc, decide_eq_true_eq]
  exact fun h1 h2 => le_trans h2 h1

theorem scoreDesc_total (a b : Article) : scoreDesc a b || scoreDesc b a := by
  simp only [scoreDesc, Bool.or_eq_true, decide_eq_true_eq]
  exact le_total (sortKey b) (sortKey a)

/-!  Concrete articles for counterexamples and witnesses -/

/-- A curated, unsent arXiv paper with score 2. -/
def artPaper1 : Article :=
  ⟨"https://arxiv.org/abs/1", "Paper One", "arXiv", "", "s", "report",
   0, 0, 0, 0, 0, 2, 0, true, false⟩

/-- A curated, unsent Hugging Face paper with score 1. -/
def artPaper2 : Article :=
  ⟨"https://hf.co/papers/2", "Paper Two", "Hugging Face Papers", "", "s", "report",
   0, 0, 0, 0, 0, 1, 0, true, false⟩

/-- An article that is not yet curated. -/
def artUncurated : Article :=
  ⟨"https://example.com/raw", "Raw", "TechCrunch", "", "", "uncategorized",
   0, 0, 0, 0, 0, 0, 0, false, false⟩

theorem paperPool_sorted :
    ([artPaper1, artPaper2].filter isCandidate).mergeSort scoreDesc
      = [artPaper1, artPaper2].filter isCandidate :=
  List.mergeSort_of_sorted (by decide)

theorem paperPool1_sorted :
    ([artPaper1].filter isCandidate).mergeSort scoreDesc
      = [artPaper1].filter isCandidate :=
  List.mergeSort_of_sorted (by decide)

/-!  Claim theorems: the selector -/

/-- C1 (counterexample): with `limit = 1`, `min_papers = 2` and a pool of two
curated, unsent papers, `get_articles_for_newsletter` returns 2 items — more
than `limit` — because the paper-quota phase does not check `limit`. -/
theorem C1_counterexample :
    ¬ ((get_articles_for_newsletter [artPaper1, artPaper2]
        ⟨1, 5, 2, 1⟩).length ≤ 1) := by
  unfold get_articles_for_newsletter
  rw [paperPool_sorted]
  decide

/-- C1 (amended): whenever `limit` leaves room for the headline slot plus the
two diversity quotas (`1 + min_papers + min_expert ≤ limit`, true of the
defaults 20, 2, 1), the output of `get_articles_for_newsletter` has length at
most `limit`. -/
theorem C1_output_le_limit (pool : List Article) (p : SelParams)
    (h : 1 + p.min_papers + p.min_expert ≤ p.limit) :
    (get_articles_for_newsletter pool p).length ≤ p.limit :=
  selectFrom_length p h _

theorem C1_output_le_limit_witness :
    1 + (2 : Nat) + 1 ≤ 20 ∧
      (get_articles_for_newsletter [artPaper1, artPaper2] ⟨20, 5, 2, 1⟩).length ≤ 20 :=
  ⟨by decide, C1_output_le_limit [artPaper1, artPaper2] ⟨20, 5, 2, 1⟩ (by decide)⟩

/-- C2 (counterexample): with `max_same_source = 0` and a pool of one curated,
unsent article, the reserved headline is still selected, so its source
contributes 1 > 0 items — phase 1 bypasses `_can_add`. -/
theorem C2_counterexample :
    ¬ (srcCount (get_articles_for_newsletter [artPaper1] ⟨20, 0, 2, 1⟩)
        "arXiv" ≤ 0) := by
  unfold get_articles_for_newsletter
  rw [paperPool1_sorted]
  decide

/-- C2 (amended): whenever `max_same_source ≥ 1` (true of the default 5), no
source contributes more than `max_same_source` items to the output, the
reserved headline counted against its source's quota like any other item. -/
theorem C2_source_cap (pool : List Article) (p : SelParams)
    (h : 1 ≤ p.max_same_source) :
    ∀ s, srcCount (get_articles_for_newsletter pool p) s ≤ p.max_same_source :=
  selectFrom_srcCap p h _

theorem C2_source_cap_witness :
    1 ≤ 5 ∧
      ∀ s, srcCount (get_articles_for_newsletter [artPaper1, artPaper2]
        ⟨20, 5, 2, 1⟩) s ≤ 5 :=
  ⟨by decide, C2_source_cap [artPaper1, artPaper2] ⟨20, 5, 2, 1⟩ (by decide)⟩

/-- C4: for every pool whose curated, unsent candidates are non-empty, the
selector's output starts with a highest-`sortKey` candidate, selected
unconditionally (no source or category restriction applies to it). -/
theorem C4_headline_is_top (pool : List Article) (p : SelParams)
    (h : pool.filter isCandidate ≠ []) :
    ∃ hd t, get_articles_for_newsletter pool p = hd :: t ∧
      hd ∈ pool.filter isCandidate ∧
      ∀ a ∈ pool.filter isCandidate, sortKey a ≤ sortKey hd := by
  have hperm := List.mergeSort_perm (pool.filter isCandidate) scoreDesc
  have hne : (pool.filter isCandidate).mergeSort scoreDesc ≠ [] := by
    intro h0
    exact h (List.Perm.nil_eq (h0 ▸ hperm)).symm
  obtain ⟨hd, t', hlt⟩ := List.exists_cons_of_ne_nil hne
  obtain ⟨t, ht⟩ := selectFrom_head p hd t'
  have hsorted := @List.sorted_mergeSort Article scoreDesc scoreDesc_trans
    scoreDesc_total (pool.filter isCandidate)
  rw [hlt] at hsorted
  refine ⟨hd, t, ?_, ?_, ?_⟩
  · unfold get_articles_for_newsletter
    rw [hlt, ht]
  · have : hd ∈ (pool.filter isCandidate).mergeSort scoreDesc := by
      rw [hlt]; exact List.mem_cons_self _ _
    exact List.mem_mergeSort.mp this
  · intro a ha
    have hal : a ∈ (pool.filter isCandidate).mergeSort scoreDesc :=
      List.mem_mergeSort.mpr ha
    rw [hlt] at hal
    rcases List.mem_cons.mp hal with rfl | hmem
    · exact le_refl _
    · exact of_decide_eq_true ((List.pairwise_cons.mp hsorted).1 a hmem)

theorem C4_headline_is_top_witness :
    ([artPaper1, artPaper2].filter isCandidate ≠ []) ∧
      (∃ hd t, get_articles_for_newsletter [artPaper1, artPaper2] ⟨20, 5, 2, 1⟩
          = hd :: t ∧
        hd ∈ [artPaper1, artPaper2].filter isCandidate ∧
        ∀ a ∈ [artPaper1, artPaper2].filter isCandidate, sortKey a ≤ sortKey hd) :=
  ⟨by decide, C4_headline_is_top [artPaper1, artPaper2] ⟨20, 5, 2, 1⟩ (by decide)⟩

/-- C5: for every pool and parameter setting the selector's output contains
no repeated URL. -/
theorem C5_no_duplicate_urls (pool : List Article) (p : SelParams) :
    ((get_articles_for_newsletter pool p).map (fun x => x.url)).Nodup :=
  selectFrom_urlNodup p _

/-- C9: a pool with no curated, unsent candidate yields the empty output for
every parameter setting. -/
theorem C9_empty_pool (pool : List Article) (p : SelParams)
    (h : pool.filter isCandidate = []) :
    get_articles_for_newsletter pool p = [] := by
  unfold get_articles_for_newsletter
  rw [h, List.mergeSort_nil]
  rfl

theorem C9_empty_pool_witness :
    ([artUncurated].filter isCandidate = []) ∧
      get_articles_for_newsletter [artUncurated] ⟨20, 5, 2, 1⟩ = [] :=
  ⟨by decide, C9_empty_pool [artUncurated] ⟨20, 5, 2, 1⟩ (by decide)⟩

/-!  Claim theorems: the curator's scoring -/

/-- A concrete judge response entry for `artUncurated`. -/
def judgment1 : Judgment :=
  ⟨"https://example.com/raw", "report", 8/10, 1/2, 3/10, 9/10, 1/10, "A summary."⟩

/-- C3 (code bug): the weighted sum of `_curate_batch` is computed exactly as
the claim states — `finalScoreOf` is the unclamped
`0.35*relevance + 0.25*impact + 0.20*actionability + 0.15*source_quality +
0.05*recency_bonus`, a pure function of the sub-scores — but it is never
stored in `final_score`: on the failing input, one article matched by
`judgment1`, the mapping loop raises after writing the sum into
`relevance_score` only; `final_score` and `impact_score` keep their previous
values and `curated` stays false, so no article ever carries the claimed
`final_score`. -/
theorem C3_weighted_sum_never_stored :
    (∀ d : Judgment, finalScoreOf d
      = 35 / 100 * d.relevance + 25 / 100 * d.impact + 20 / 100 * d.actionability
        + 15 / 100 * d.source_quality + 5 / 100 * d.recency_bonus) ∧
    curateBatch [artUncurated] [judgment1]
      = Except.error [partialUpdate artUncurated judgment1] ∧
    (partialUpdate artUncurated judgment1).relevance_score = finalScoreOf judgment1 ∧
    (partialUpdate artUncurated judgment1).final_score = artUncurated.final_score ∧
    (partialUpdate artUncurated judgment1).impact_score = artUncurated.impact_score ∧
    (partialUpdate artUncurated judgment1).curated = false := by
  refine ⟨?_, rfl, rfl, rfl, rfl, rfl⟩
  intro d
  unfold finalScoreOf
  ring

/-!  Claim theorems: `insert_article` -/

/-- The same URL as `artPaper1` but different content and flags. -/
def artPaper1Clone : Article :=
  ⟨"https://arxiv.org/abs/1", "Other Title", "Someone Else", "body", "other",
   "opinion", 1, 1, 1, 1, 1, 1, 7, false, true⟩

theorem insertArticle_dup {store : List Article} {a : Article}
    (h : store.any (fun r => r.url == a.url) = true) :
    insertArticle store a = (store, false) := by
  unfold insertArticle
  rw [if_pos h]

theorem insertArticle_new {store : List Article} {a : Article}
    (h : ¬ store.any (fun r => r.url == a.url) = true) :
    insertArticle store a = (store ++ [a], true) := by
  unfold insertArticle
  rw [if_neg h]

/-- Invariant of the fold in `insert_articles`: filtering the final store by
a URL yields the rows already present, and — when the URL was absent — the
first incoming article carrying it. -/
theorem insertAll_filter :
    ∀ (ls s : List Article) (u : String),
      (insertAll s ls).filter (fun r => r.url == u)
        = s.filter (fun r => r.url == u)
          ++ (if s.any (fun r => r.url == u) then []
              else (ls.filter (fun r => r.url == u)).take 1) := by
  intro ls
  induction ls with
  | nil =>
    intro s u
    by_cases hp : s.any (fun r => r.url == u) = true <;>
      simp [insertAll, hp]
  | cons a rest ih =>
    intro s u
    have hstep : insertAll s (a :: rest) = insertAll (insertArticle s a).1 rest := by
      simp [insertAll]
    rw [hstep]
    by_cases hu : a.url = u
    · subst hu
      by_cases hp : s.any (fun r => r.url == a.url) = true
      · rw [insertArticle_dup hp]
        rw [ih s a.url, if_pos hp, if_pos hp]
      · rw [insertArticle_new hp]
        have hflt : s.filter (fun r => r.url == a.url) = [] := by
          rw [List.filter_eq_nil_iff]
          intro r hr hc
          exact hp (List.any_eq_true.mpr ⟨r, hr, hc⟩)
        have hany : (s ++ [a]).any (fun r => r.url == a.url) = true := by
          simp
        rw [ih (s ++ [a]) a.url, if_pos hany, if_neg hp,
          List.filter_append, hflt]
        simp [List.filter_cons]
    · have hne : (a.url == u) = false := by simp [hu]
      by_cases hp : s.any (fun r => r.url == a.url) = true
      · rw [insertArticle_dup hp, ih s u]
        simp [List.filter_cons, hne]
      · rw [insertArticle_new hp, ih (s ++ [a]) u]
        have h1 : (s ++ [a]).filter (fun r => r.url == u)
            = s.filter (fun r => r.url == u) := by
          simp [List.filter_append, List.filter_cons, hne]
        have h2 : (s ++ [a]).any (fun r => r.url == u)
            = s.any (fun r => r.url == u) := by
          simp [List.any_append, hne]
        rw [h1, h2]
        simp [List.filter_cons, hne]

/-- C6: `insert_article` is first-write-wins: inserting an article whose URL
is already stored leaves the store entirely unchanged (titles, scores and the
curated/sent flags included) and returns `False`; and after any sequence of
inserts into an empty store, each URL is held by exactly one row, the first
writer's. -/
theorem C6_insert_first_write_wins :
    (∀ (store : List Article) (a : Article),
      store.any (fun r => r.url == a.url) = true →
        insertArticle store a = (store, false)) ∧
    (∀ (ls : List Article) (u : String),
      (insertAll [] ls).filter (fun r => r.url == u)
        = (ls.filter (fun r => r.url == u)).take 1) := by
  constructor
  · intro store a h
    exact insertArticle_dup h
  · intro ls u
    simpa using insertAll_filter ls [] u

theorem C6_insert_first_write_wins_witness :
    ([artPaper1].any (fun r => r.url == artPaper1Clone.url) = true) ∧
      insertArticle [artPaper1] artPaper1Clone = ([artPaper1], false) :=
  ⟨by decide, C6_insert_first_write_wins.1 [artPaper1] artPaper1Clone (by decide)⟩

/-!  Claim theorems: `send_newsletter` -/

/-- The dispatch loop of `send_newsletter`, started at arbitrary counters:
each recipient adds exactly one to `sent` or to `failed` according to its own
delivery outcome. -/
theorem send_loop_counts (ok : Nat → Bool) :
    ∀ (l : List String) (n s f : Nat),
      List.foldl (fun r ie => if ok ie.1 then (r.1 + 1, r.2) else (r.1, r.2 + 1))
        (s, f) (List.enumFrom n l)
        = (s + ((List.range' n l.length).filter ok).length,
           f + ((List.range' n l.length).filter (fun i => !(ok i))).length) := by
  intro l
  induction l with
  | nil => intro n s f; simp [List.enumFrom, List.range']
  | cons a rest ih =>
    intro n s f
    show List.foldl _ (if ok n then (s + 1, f) else (s, f + 1)) (List.enumFrom (n + 1) rest) = _
    by_cases hok : ok n = true
    · rw [if_pos hok, ih (n + 1) (s + 1) f]
      have h1 : (List.range' n (a :: rest).length).filter ok
          = n :: (List.range' (n + 1) rest.length).filter ok := by
        simp [List.range', List.filter_cons, hok]
      have h2 : (List.range' n (a :: rest).length).filter (fun i => !(ok i))
          = (List.range' (n + 1) rest.length).filter (fun i => !(ok i)) := by
        simp [List.range', List.filter_cons, hok]
      rw [h1, h2]
      simp only [List.length_cons, Prod.mk.injEq]
      exact ⟨by omega, trivial⟩
    · rw [if_neg hok, ih (n + 1) s (f + 1)]
      have hok' : ok n = false := by
        cases h : ok n
        · rfl
        · exact absurd h hok
      have h1 : (List.range' n (a :: rest).length).filter ok
          = (List.range' (n + 1) rest.length).filter ok := by
        simp [List.range', List.filter_cons, hok']
      have h2 : (List.range' n (a :: rest).length).filter (fun i => !(ok i))
          = n :: (List.range' (n + 1) rest.length).filter (fun i => !(ok i)) := by
        simp [List.range', List.filter_cons, hok']
      rw [h1, h2]
      simp only [List.length_cons, Prod.mk.injEq]
      exact ⟨trivial, by omega⟩

theorem length_filter_add_length_filter_not (ok : Nat → Bool) :
    ∀ l : List Nat,
      (l.filter ok).length + (l.filter (fun i => !(ok i))).length = l.length := by
  intro l
  induction l with
  | nil => simp
  | cons a t ih =>
    by_cases h : ok a = true <;>
      simp [List.filter_cons, h] <;> omega

/-- C8: with a non-empty recipient list and a configured API key,
`send_newsletter` (a total function: each attempt's failure is absorbed by
the per-recipient `except` branch) reports `sent` = the number of successful
deliveries, `failed` = the number of failed ones, and `sent + failed` = the
number of recipients, whatever each individual outcome is. -/
theorem C8_send_counts (subs : List String) (hasKey : Bool) (ok : Nat → Bool)
    (hs : subs ≠ []) (hk : hasKey = true) :
    send_newsletter subs hasKey ok
      = (((List.range subs.length).filter ok).length,
         ((List.range subs.length).filter (fun i => !(ok i))).length) ∧
    (send_newsletter subs hasKey ok).1 + (send_newsletter subs hasKey ok).2
      = subs.length := by
  subst hk
  have hemp : subs.isEmpty = false := by
    cases subs with
    | nil => exact absurd rfl hs
    | cons a t => rfl
  have hmain : send_newsletter subs true ok
      = (((List.range subs.length).filter ok).length,
         ((List.range subs.length).filter (fun i => !(ok i))).length) := by
    unfold send_newsletter
    rw [hemp]
    show List.foldl _ (0, 0) (List.enum subs) = _
    rw [List.enum, send_loop_counts ok subs 0 0 0, List.range_eq_range']
    simp
  refine ⟨hmain, ?_⟩
  rw [hmain]
  show (((List.range subs.length).filter ok).length
      + ((List.range subs.length).filter (fun i => !(ok i))).length) = _
  rw [length_filter_add_length_filter_not ok (List.range subs.length)]
  exact List.length_range subs.length

theorem C8_send_counts_witness :
    ((["a@x.io", "b@x.io", "c@x.io", "d@x.io", "e@x.io"] : List String) ≠ []) ∧
      (true = true) ∧
      (send_newsletter ["a@x.io", "b@x.io", "c@x.io", "d@x.io", "e@x.io"] true
          (fun i => !(i == 2))
        = (((List.range 5).filter (fun i => !(i == 2))).length,
           ((List.range 5).filter (fun i => !(!(i == 2)))).length) ∧
       (send_newsletter ["a@x.io", "b@x.io", "c@x.io", "d@x.io", "e@x.io"] true
          (fun i => !(i == 2))).1
        + (send_newsletter ["a@x.io", "b@x.io", "c@x.io", "d@x.io", "e@x.io"] true
          (fun i => !(i == 2))).2 = 5) ∧
      send_newsletter ["a@x.io", "b@x.io", "c@x.io", "d@x.io", "e@x.io"] true
          (fun i => !(i == 2)) = (4, 1) :=
  ⟨by decide, rfl,
    C8_send_counts ["a@x.io", "b@x.io", "c@x.io", "d@x.io", "e@x.io"] true
      (fun i => !(i == 2)) (by decide) rfl,
    by decide⟩

/-!  Batching and persistence lemmas -/

theorem chunksOf_flatten : ∀ (l : List Article), (chunksOf l).flatten = l
  | [] => by rw [chunksOf]; rfl
  | a :: rest => by
    rw [chunksOf, List.flatten_cons,
      chunksOf_flatten ((a :: rest).drop BATCH_SIZE), List.take_append_drop]
termination_by l => l.length
decreasing_by simp [BATCH_SIZE]; omega

/-- `curate_articles` is exactly the per-batch processing of the chunks (the
`if not articles` guard is redundant for the empty list). -/
theorem curate_eq_flatMap (articles : List Article)
    (judge : List Article → Except Unit (List Judgment)) :
    curate_articles articles judge
      = (chunksOf articles).flatMap (fun b =>
          match judge b with
          | Except.error _ => b
          | Except.ok parsed =>
            match curateBatch b parsed with
            | Except.ok res => res
            | Except.error mutated => mutated) := by
  unfold curate_articles
  match articles with
  | [] => rw [chunksOf]; rfl
  | a :: rest => rfl

theorem partialUpdate_curated (a : Article) (d : Judgment) :
    (partialUpdate a d).curated = a.curated := rfl

/-- Both outcomes of the mapping loop — the normal return and the list left
behind by the `ValueError` — keep the batch's `curated` flags: the
`article.curated = True` statement is never reached. -/
theorem curateBatch_curated :
    ∀ (arts : List Article) (parsed : List Judgment) (res : List Article),
      (curateBatch arts parsed = Except.ok res ∨
        curateBatch arts parsed = Except.error res) →
      (∀ a ∈ arts, a.curated = false) → ∀ x ∈ res, x.curated = false := by
  intro arts
  induction arts with
  | nil =>
    intro parsed res hres h x hx
    rcases hres with h1 | h1
    · rw [show curateBatch [] parsed = Except.ok [] from rfl] at h1
      injection h1 with h2
      subst h2
      simp at hx
    · rw [show curateBatch [] parsed = Except.ok [] from rfl] at h1
      exact Except.noConfusion h1
  | cons a rest ih =>
    intro parsed res hres h x hx
    cases hm : resultMap parsed a.url with
    | some d =>
      have heq : curateBatch (a :: rest) parsed
          = Except.error (partialUpdate a d :: rest) := by
        simp only [curateBatch, hm]
      rcases hres with h1 | h1
      · rw [heq] at h1; exact Except.noConfusion h1
      · rw [heq] at h1
        injection h1 with h2
        subst h2
        rcases List.mem_cons.mp hx with rfl | hxr
        · rw [partialUpdate_curated]
          exact h a (List.mem_cons_self _ _)
        · exact h x (List.mem_cons_of_mem _ hxr)
    | none =>
      cases hrec : curateBatch rest parsed with
      | ok r =>
        have heq : curateBatch (a :: rest) parsed = Except.ok (a :: r) := by
          simp only [curateBatch, hm, hrec]
        rcases hres with h1 | h1
        · rw [heq] at h1
          injection h1 with h2
          subst h2
          rcases List.mem_cons.mp hx with rfl | hxr
          · exact h _ (List.mem_cons_self _ _)
          · exact ih parsed r (Or.inl hrec)
              (fun y hy => h y (List.mem_cons_of_mem _ hy)) x hxr
        · rw [heq] at h1; exact Except.noConfusion h1
      | error m =>
        have heq : curateBatch (a :: rest) parsed = Except.error (a :: m) := by
          simp only [curateBatch, hm, hrec]
        rcases hres with h1 | h1
        · rw [heq] at h1; exact Except.noConfusion h1
        · rw [heq] at h1
          injection h1 with h2
          subst h2
          rcases List.mem_cons.mp hx with rfl | hxr
          · exact h _ (List.mem_cons_self _ _)
          · exact ih parsed m (Or.inr hrec)
              (fun y hy => h y (List.mem_cons_of_mem _ hy)) x hxr

/-- No article of `curate_articles`' output is ever marked curated. -/
theorem curate_articles_curated_false (articles : List Article)
    (judge : List Article → Except Unit (List Judgment))
    (h : ∀ a ∈ articles, a.curated = false) :
    ∀ x ∈ curate_articles articles judge, x.curated = false := by
  intro x hx
  rw [curate_eq_flatMap] at hx
  obtain ⟨b, hb, hxb⟩ := List.mem_flatMap.mp hx
  have hbsub : ∀ a ∈ b, a.curated = false := fun a ha =>
    h a ((chunksOf_flatten articles) ▸ List.mem_flatten_of_mem hb ha)
  cases hjb : judge b with
  | error e =>
    simp only [hjb] at hxb
    exact hbsub x hxb
  | ok parsed =>
    simp only [hjb] at hxb
    cases hrun : curateBatch b parsed with
    | ok res =>
      simp only [hrun] at hxb
      exact curateBatch_curated b parsed res (Or.inl hrun) hbsub x hxb
    | error m =>
      simp only [hrun] at hxb
      exact curateBatch_curated b parsed m (Or.inr hrun) hbsub x hxb

/-- The step-3 persistence loop skips every non-curated article. -/
theorem persistCuration_skip :
    ∀ (out store : List Article), (∀ a ∈ out, a.curated = false) →
      persistCuration store out = store := by
  intro out
  induction out with
  | nil => intro store _; rfl
  | cons a out' ih =>
    intro store h
    have hstep : persistCuration store (a :: out')
        = persistCuration
            (if a.curated then
              update_article_curation store a.url a.summary a.category a.relevance_score 0 0 0 0 0
            else store) out' := by
      simp [persistCuration]
    rw [hstep, if_neg (by rw [h a (List.mem_cons_self _ _)]; simp)]
    exact ih store (fun y hy => h y (List.mem_cons_of_mem _ hy))

/-- Rows returned by the uncurated query are not curated. -/
theorem uncurated_curated_false (store : List Article) :
    ∀ a ∈ get_uncurated_articles store, a.curated = false := by
  intro a ha
  have h2 := (List.mem_filter.mp ha).2
  simp only [Bool.and_eq_true, Bool.not_eq_true'] at h2
  exact h2.1

/-!  Claim theorems: the `_curate_batch` crash (C7, C10) -/

/-- C7 (code bug): on the failing input — one uncurated article whose batch
is matched by the judge response — the batch is not returned unchanged: the
mapping loop raises the `ValueError` and the article comes back with
`category`, `summary` and `relevance_score` already mutated in place (though
`curated` is still false); the run is not aborted, nothing is persisted, and
the next uncurated query returns the article again — as it does every
article, since no batch with a matched article can succeed. -/
theorem C7_matched_batch_mutated :
    curate_articles [artUncurated] (fun _ => Except.ok [judgment1])
      = [partialUpdate artUncurated judgment1] ∧
    partialUpdate artUncurated judgment1 ≠ artUncurated ∧
    (partialUpdate artUncurated judgment1).curated = false ∧
    runCuration [artUncurated] (fun _ => Except.ok [judgment1]) = [artUncurated] ∧
    get_uncurated_articles
        (runCuration [artUncurated] (fun _ => Except.ok [judgment1]))
      = [artUncurated] := by
  have hchunks : chunksOf [artUncurated] = [[artUncurated]] := by
    rw [chunksOf]
    simp only [BATCH_SIZE, List.take, List.drop]
    rw [chunksOf]
  have h1 : curate_articles [artUncurated] (fun _ => Except.ok [judgment1])
      = [partialUpdate artUncurated judgment1] := by
    unfold curate_articles
    rw [hchunks]
    rfl
  have hne : partialUpdate artUncurated judgment1 ≠ artUncurated := by
    intro h
    have h2 := congrArg Article.summary h
    simp [partialUpdate, artUncurated, judgment1] at h2
  have h4 : runCuration [artUncurated] (fun _ => Except.ok [judgment1])
      = [artUncurated] := by
    unfold runCuration
    have hunc : get_uncurated_articles [artUncurated] = [artUncurated] := by decide
    rw [hunc, h1]
    rfl
  refine ⟨h1, hne, rfl, h4, ?_⟩
  rw [h4]
  decide

/-- C10 (code bug): the persistence the claim describes never executes.
No output of the curator is ever marked curated, so `main.py` never calls
`update_article_curation` and a step-3 run (`runCuration`) leaves the
articles store — and with it the uncurated query — unchanged, for every
store and every judging outcome; no row is ever stored with the claimed
relevance_score/final_score shape. -/
theorem C10_nothing_persisted (store : List Article)
    (judge : List Article → Except Unit (List Judgment)) :
    runCuration store judge = store ∧
    get_uncurated_articles (runCuration store judge)
      = get_uncurated_articles store := by
  have hmain : runCuration store judge = store := by
    unfold runCuration
    exact persistCuration_skip _ store
      (curate_articles_curated_false _ judge (uncurated_curated_false store))
  exact ⟨hmain, by rw [hmain]⟩

end Newsletter
